import Mathlib

/-
  Verification of the tuploid lexer (src/tuploid-parser/src/lexer.rs).

  The Rust code indexes the source text by UTF-8 byte offsets, so the model
  keeps the source as a list of characters and performs all slicing through
  explicit byte-offset functions that fail (return none) exactly where the
  Rust slicing operators would panic: on out-of-range indices and on indices
  that are not character boundaries.  A returned none therefore models a
  panic of the Rust program; some models a normal return.

  Machine integers: line, column and cursor are u64 and usize in the source.
  They are modelled as Nat; every operation performed on them in the source
  is an increment or a guarded subtraction, and no theorem below drives them
  anywhere near 2^64, so wrap-around is not observable in any statement.
-/

namespace Tuploid

/-- The Unicode White_Space code points, the exact set accepted by the Rust
standard library predicate char::is_whitespace used in skip_whitespace. -/
def rustIsWhitespace (c : Char) : Bool :=
  let n := c.toNat
  n == 0x09 || n == 0x0A || n == 0x0B || n == 0x0C || n == 0x0D || n == 0x20 ||
  n == 0x85 || n == 0xA0 || n == 0x1680 || (0x2000 ≤ n && n ≤ 0x200A) ||
  n == 0x2028 || n == 0x2029 || n == 0x202F || n == 0x205F || n == 0x3000

/-- Model of the Rust predicate char::is_numeric (Unicode categories Nd, Nl,
No).  Exact on ASCII; beyond ASCII the full Unicode tables are abridged to a
few representative decimal-digit ranges.  No theorem below depends on the
extent of the non-ASCII part: the universal theorems are proved for an
arbitrary predicate outcome, and every concrete input is ASCII. -/
def rustIsNumeric (c : Char) : Bool :=
  c.isDigit ||
  (0x660 ≤ c.toNat && c.toNat ≤ 0x669) ||
  (0x6F0 ≤ c.toNat && c.toNat ≤ 0x6F9) ||
  (0x966 ≤ c.toNat && c.toNat ≤ 0x96F)

/-- Model of the Rust predicate char::is_alphabetic (Unicode Alphabetic).
Exact on ASCII; the non-ASCII tables are abridged as for rustIsNumeric. -/
def rustIsAlphabetic (c : Char) : Bool :=
  c.isAlpha ||
  (0x391 ≤ c.toNat && c.toNat ≤ 0x3A9) ||
  (0x3B1 ≤ c.toNat && c.toNat ≤ 0x3C9) ||
  (0x4E00 ≤ c.toNat && c.toNat ≤ 0x9FFF)

/-- Rust char::is_alphanumeric is alphabetic-or-numeric. -/
def rustIsAlphanumeric (c : Char) : Bool :=
  rustIsAlphabetic c || rustIsNumeric c

/-- is_valid_identifier_start_char from the source. -/
def is_valid_identifier_start_char (c : Char) : Bool :=
  rustIsAlphabetic c || c = '_'

/-- is_valid_identifier_char from the source. -/
def is_valid_identifier_char (c : Char) : Bool :=
  rustIsAlphanumeric c || c = '_'

/-- Total UTF-8 byte length of a character list, matching str::len. -/
def byteLen (cs : List Char) : Nat := (cs.map Char.utf8Size).sum

/-- The suffix of a character list starting at byte offset n, i.e. the Rust
slice s[n..]: none (panic) when n exceeds the byte length or falls inside
the encoding of a character. -/
def byteDrop : List Char → Nat → Option (List Char)
  | cs, 0 => some cs
  | [], _ + 1 => none
  | c :: cs, n + 1 =>
    if n + 1 < c.utf8Size then none else byteDrop cs (n + 1 - c.utf8Size)

/-- The prefix of a character list covering exactly n bytes: none (panic)
when n overruns the list or splits a character. -/
def byteTake : List Char → Nat → Option (List Char)
  | _, 0 => some []
  | [], _ + 1 => none
  | c :: cs, n + 1 =>
    if n + 1 < c.utf8Size then none
    else (byteTake cs (n + 1 - c.utf8Size)).map (fun t => c :: t)

/-- The Rust slice s[a..b] on byte offsets: none (panic) unless a ≤ b and
both offsets are character boundaries within the text. -/
def byteSlice (cs : List Char) (a b : Nat) : Option (List Char) :=
  if a ≤ b then (byteDrop cs a).bind (fun t => byteTake t (b - a)) else none

/-- Byte index, within the list, of the first character satisfying p, or
none when every character fails p: the semantics of str::find with a
character predicate, whose index is relative to the string it is called
on. -/
def findByteIdx? (cs : List Char) (p : Char → Bool) : Option Nat :=
  match cs with
  | [] => none
  | c :: cs =>
    if p c then some 0 else (findByteIdx? cs p).map (fun i => c.utf8Size + i)

/-- The Number enum from the source.  Untyped and Integer carry the u64
value as a Nat.  Float carries the integer part and the fractional digit
string of the parsed decimal (the source stores the f64 itself; every
theorem below only inspects which variant is produced). -/
inductive Number where
  | Untyped (n : Nat)
  | Integer (n : Nat)
  | Float (intPart : Nat) (fracDigits : List Char)
  deriving DecidableEq

/-- NumberParseError from the source. -/
inductive NumberParseError where
  | InvalidBase
  | InvalidInteger
  deriving DecidableEq

/-- The Debug rendering of NumberParseError, as produced by the format
specifier in consume_number. -/
def NumberParseError.debugStr : NumberParseError → String
  | NumberParseError.InvalidBase => "InvalidBase"
  | NumberParseError.InvalidInteger => "InvalidInteger"

/-- TokenKind from the source.  The Rust keyword variant named after the
type keyword is spelled TypeKw here because its source name is reserved in
Lean.  Identifier carries the borrowed substring as its character list. -/
inductive TokenKind where
  | Eof
  | Error (msg : String)
  | If
  | While
  | Loop
  | For
  | In
  | Let
  | TypeKw
  | Colon
  | Semicolon
  | LeftParen
  | RightParen
  | LeftCurly
  | RightCurly
  | Comma
  | Equals
  | Plus
  | Minus
  | Star
  | Slash
  | Not
  | Tilde
  | EqualsEquals
  | PlusEquals
  | MinusEquals
  | StarEquals
  | SlashEquals
  | NotEquals
  | TildeEquals
  | Ampersand
  | AmpersandAmpersand
  | Pipe
  | PipePipe
  | Comment
  | Identifier (name : List Char)
  | Number (num : Number)
  deriving DecidableEq

/-- Token from the source. -/
structure Token where
  line : Nat
  column : Nat
  kind : TokenKind
  deriving DecidableEq

def Token.eof (line column : Nat) : Token := ⟨line, column, TokenKind.Eof⟩

def Token.identifier (line column : Nat) (name : List Char) : Token :=
  ⟨line, column, TokenKind.Identifier name⟩

def Token.number (line column : Nat) (n : Number) : Token :=
  ⟨line, column, TokenKind.Number n⟩

def Token.error (line column : Nat) (msg : String) : Token :=
  ⟨line, column, TokenKind.Error msg⟩

def Token.simple (line column : Nat) (kind : TokenKind) : Token :=
  ⟨line, column, kind⟩

/-- A single apostrophe, used by the error messages the source builds with
format strings. -/
def squote : String := String.singleton (Char.ofNat 39)

/-- Value of an ASCII digit string read in base 10. -/
def natOfDigits (cs : List Char) : Nat :=
  cs.foldl (fun a c => a * 10 + (c.toNat - 48)) 0

/-- Model of f64::from_str restricted to the grammar that can reach it from
this lexer: a run of ASCII digits, optionally followed by a dot and further
ASCII digits (sign, exponent, infinity and NaN forms cannot occur, since
consume_number only ever passes characters accepted by its numeric scan).
The result is the integer part together with the fractional digit string;
the parse succeeds exactly when the Rust parse does on this fragment.  The
numeric value is kept exact as a Nat: the f64 rounding of literals beyond
2^53 and the saturation of the cast to u64 are not modelled, and no theorem
below inspects the value of such a literal. -/
def parseF64 (s : List Char) : Option (Nat × List Char) :=
  let ip := s.takeWhile Char.isDigit
  let rest := s.dropWhile Char.isDigit
  match rest with
  | [] => if ip.isEmpty then none else some (natOfDigits ip, [])
  | '.' :: fr =>
    if fr.all Char.isDigit && (!ip.isEmpty || !fr.isEmpty) then
      some (natOfDigits ip, fr)
    else none
  | _ => none

def isAsciiLower (c : Char) : Bool := 97 ≤ c.toNat && c.toNat ≤ 122

def isAsciiUpper (c : Char) : Bool := 65 ≤ c.toNat && c.toNat ≤ 90

/-- Model of char::to_digit as used by u64::from_str_radix: ASCII digits and
letters denote values 0-35, accepted when below the radix. -/
def charToDigit (c : Char) (radix : Nat) : Option Nat :=
  if c.isDigit then
    if c.toNat - 48 < radix then some (c.toNat - 48) else none
  else if isAsciiLower c then
    if c.toNat - 87 < radix then some (c.toNat - 87) else none
  else if isAsciiUpper c then
    if c.toNat - 55 < radix then some (c.toNat - 55) else none
  else none

/-- The accumulation loop of u64::from_str_radix: fold the digits left to
right, failing on an invalid digit or when the checked u64 arithmetic would
overflow past 2^64. -/
def fromStrRadixLoop (radix : Nat) : List Char → Nat → Option Nat
  | [], a => some a
  | c :: cs, a =>
    match charToDigit c radix with
    | none => none
    | some d =>
      if a * radix + d < 2 ^ 64 then fromStrRadixLoop radix cs (a * radix + d)
      else none

/-- Model of u64::from_str_radix: a nonempty string of digits valid under
the radix.  Sign handling is omitted: no caller in this development can
pass a sign character. -/
def fromStrRadix (s : List Char) (radix : Nat) : Option Nat :=
  if s.isEmpty then none else fromStrRadixLoop radix s 0

/-- Number::from_str from the source: first attempt a full floating-point
parse, classifying an integral value as Untyped and a fractional one as
Float; otherwise select a radix from a leading zero and its successor
character (the literal consisting of the single character 0 is Untyped 0,
an unrecognised successor is an invalid-base error) and hand the whole
substring, marker included, to the radix parser. -/
def Number.fromStr (s : List Char) : Except NumberParseError Number :=
  match parseF64 s with
  | some (ip, fr) =>
    if natOfDigits fr == 0 then Except.ok (Number.Untyped ip)
    else Except.ok (Number.Float ip fr)
  | none =>
    if s.head? = some '0' then
      match s.get? 1 with
      | none => Except.ok (Number.Untyped 0)
      | some base =>
        match (match base with
               | 'x' => some 16
               | 'y' => some 14
               | 'z' => some 12
               | 'o' => some 8
               | 'b' => some 2
               | 's' => some 13
               | _ => none) with
        | none => Except.error NumberParseError.InvalidBase
        | some radix =>
          match fromStrRadix s radix with
          | some n => Except.ok (Number.Integer n)
          | none => Except.error NumberParseError.InvalidInteger
    else
      match fromStrRadix s 10 with
      | some n => Except.ok (Number.Integer n)
      | none => Except.error NumberParseError.InvalidInteger

/-- The Lexer struct from the source: the borrowed source text plus the
byte cursor and the line and column counters. -/
structure Lexer where
  src : List Char
  cursor : Nat
  line : Nat
  column : Nat
  deriving DecidableEq

/-- Lexer::new. -/
def Lexer.new (src : List Char) : Lexer := ⟨src, 0, 1, 1⟩

/-- Lexer::next_char: decode the character at src[cursor..] (none models the
panic when the cursor is not a character boundary), always bump the column,
and advance the cursor by the width of the decoded character, or by zero at
the end of the text. -/
def Lexer.nextChar (L : Lexer) : Option (Option Char × Lexer) :=
  (byteDrop L.src L.cursor).map (fun rest =>
    match rest.head? with
    | some c =>
      (some c, { L with column := L.column + 1, cursor := L.cursor + c.utf8Size })
    | none => (none, { L with column := L.column + 1 }))

/-- Lexer::peek_char: the first character of src[cursor + 1 ..].  The byte
offset really is cursor plus one in the source, even though the cursor has
already been advanced past the character just read. -/
def Lexer.peekChar (L : Lexer) : Option (Option Char) :=
  (byteDrop L.src (L.cursor + 1)).map List.head?

/-- Lexer::next_is: compare the byte range src[cursor .. cursor + len s]
against s; none models the panic when the range overruns the text or splits
a character. -/
def Lexer.nextIs (L : Lexer) (s : List Char) : Option Bool :=
  (byteSlice L.src L.cursor (L.cursor + byteLen s)).map (fun t => t == s)

/-- Lexer::retreat: move the cursor back count bytes.  Every call site
subtracts at most what the call just added, so the truncated subtraction
agrees with the source. -/
def Lexer.retreat (L : Lexer) (count : Nat) : Lexer :=
  { L with cursor := L.cursor - count }

/-- The loop of Lexer::skip_whitespace: walk the decoded characters,
counting the whitespace characters to skip while updating line and column
per character. -/
def skipWsLoop : List Char → Nat → Nat → Nat → Nat × Nat × Nat
  | [], toSkip, line, col => (toSkip, line, col)
  | c :: cs, toSkip, line, col =>
    if rustIsWhitespace c then
      if c = '\n' then skipWsLoop cs (toSkip + 1) (line + 1) 1
      else skipWsLoop cs (toSkip + 1) line (col + 1)
    else (toSkip, line, col)

/-- Lexer::skip_whitespace: count the leading whitespace characters of
src[cursor..] while updating line and column, then advance the cursor by
the character count — the count of characters, not of their bytes, which is
the position bug exercised by multi-byte whitespace. -/
def Lexer.skipWhitespace (L : Lexer) : Option Lexer :=
  (byteDrop L.src L.cursor).map (fun rest =>
    let r := skipWsLoop rest 0 L.line L.column
    { L with cursor := L.cursor + r.1, line := r.2.1, column := r.2.2 })

/-- Lexer::consume_identifier: find the byte offset, within the suffix at
the cursor, of the first character that is not a valid identifier
character; when every character qualifies, the unwrap_or_else fallback of
the source substitutes the byte length of the WHOLE source, not of the
suffix, so the following slice src[cursor .. cursor + identifier_end]
overruns and panics whenever the run reaches end of input with a nonzero
cursor.  Otherwise emit the identifier token over the span and advance
cursor and column by the span length. -/
def Lexer.consumeIdentifier (L : Lexer) : Option (Token × Lexer) :=
  (byteDrop L.src L.cursor).bind (fun rest =>
    let identifierEnd :=
      (findByteIdx? rest (fun c => !is_valid_identifier_char c)).getD
        (byteLen L.src)
    (byteSlice L.src L.cursor (L.cursor + identifierEnd)).map (fun name =>
      (Token.identifier L.line L.column name,
       { L with cursor := L.cursor + identifierEnd,
                column := L.column + identifierEnd })))

/-- The base-marker characters of consume_number, in source order. -/
def BASES : List Char := ['x', 'y', 'z', 's', 'o', 'b']

/-- Lexer::consume_number: scan the maximal run of numeric, base-marker and
dot characters — with the same find fallback as consume_identifier: when
the run reaches end of input, the source substitutes the byte length of
the whole source, so the following slice panics at a nonzero cursor.
Advance the cursor by the span length and the line counter by the same
amount (the line counter, not the column — the position quirk of the
source); reject the run when it contains one or more dots, then when it
contains one or more of any base marker, and otherwise wrap the result of
Number::from_str. -/
def Lexer.consumeNumber (L : Lexer) : Option (Token × Lexer) :=
  (byteDrop L.src L.cursor).bind (fun rest =>
    let numberEnd :=
      (findByteIdx? rest
        (fun c => !(rustIsNumeric c || BASES.contains c || c = '.'))).getD
        (byteLen L.src)
    (byteSlice L.src L.cursor (L.cursor + numberEnd)).map (fun possibleNumber =>
      let L1 : Lexer := { L with cursor := L.cursor + numberEnd,
                                 line := L.line + numberEnd }
      if 1 ≤ (possibleNumber.filter (fun c => c = '.')).length then
        (Token.error L1.line L1.column "too many dots in floating-point literal", L1)
      else
        match BASES.find? (fun b =>
            1 ≤ (possibleNumber.filter (fun c => c = b)).length) with
        | some b =>
          (Token.error L1.line L1.column
            ("Too many " ++ squote ++ String.singleton b ++ squote ++
             " in integer literal"), L1)
        | none =>
          match Number.fromStr possibleNumber with
          | Except.ok n => (Token.number L1.line L1.column n, L1)
          | Except.error e =>
            (Token.error L1.line L1.column
              ("Error when parsing integer literal: " ++ e.debugStr), L1)))

/-- The loop of Lexer::consume_single_line_comment: repeatedly peek at
src[cursor + 1 ..] and advance the cursor by the width of the peeked
character, stopping after a newline or when the peek sees no character;
none models the panic of an out-of-range peek.  The fuel argument only
bounds the recursion; the cursor grows every step, so the byte length of
the source plus two steps always suffices. -/
def commentLoop (src : List Char) (cursor : Nat) : Nat → Option Nat
  | 0 => none
  | fuel + 1 =>
    match byteDrop src (cursor + 1) with
    | none => none
    | some rest =>
      match rest.head? with
      | none => some cursor
      | some c =>
        if c = '\n' then some (cursor + c.utf8Size)
        else commentLoop src (cursor + c.utf8Size) fuel

/-- Lexer::consume_single_line_comment: run the loop, emit the comment
token at the current position, then bump the line and reset the column. -/
def Lexer.consumeSingleLineComment (L : Lexer) : Option (Token × Lexer) :=
  (commentLoop L.src L.cursor (byteLen L.src + 2)).map (fun cursor =>
    (Token.simple L.line L.column TokenKind.Comment,
     { L with cursor := cursor, line := L.line + 1, column := 1 }))

/-- The dispatch match of Lexer::next on the character just read; L is the
state after that read.  Every branch mirrors the source arm for its
character, including which state the emitted token captures and which
lookahead calls may panic. -/
def Lexer.dispatch (L : Lexer) (c : Char) : Option (Token × Lexer) :=
  match c with
  | 'i' =>
    match L.peekChar with
    | none => none
    | some (some c2) =>
      if c2 = 'f' then some (Token.simple L.line L.column TokenKind.If, L)
      else if c2 = 'n' then some (Token.simple L.line L.column TokenKind.In, L)
      else (L.retreat 1).consumeIdentifier
    | some none => (L.retreat 1).consumeIdentifier
  | 'l' =>
    match L.nextIs ['o', 'o', 'p'] with
    | none => none
    | some true =>
      some (Token.simple L.line L.column TokenKind.Loop,
            { L with cursor := L.cursor + 3 })
    | some false =>
      match L.nextIs ['e', 't'] with
      | none => none
      | some true =>
        some (Token.simple L.line L.column TokenKind.Let,
              { L with cursor := L.cursor + 2 })
      | some false => (L.retreat 1).consumeIdentifier
  | 't' =>
    match L.nextIs ['y', 'p', 'e'] with
    | none => none
    | some true =>
      some (Token.simple L.line L.column TokenKind.TypeKw,
            { L with cursor := L.cursor + 3 })
    | some false => (L.retreat 1).consumeIdentifier
  | ':' => some (Token.simple L.line L.column TokenKind.Colon, L)
  | ';' => some (Token.simple L.line L.column TokenKind.Semicolon, L)
  | '(' => some (Token.simple L.line L.column TokenKind.LeftParen, L)
  | ')' => some (Token.simple L.line L.column TokenKind.RightParen, L)
  | '{' => some (Token.simple L.line L.column TokenKind.LeftCurly, L)
  | '}' => some (Token.simple L.line L.column TokenKind.RightCurly, L)
  | ',' => some (Token.simple L.line L.column TokenKind.Comma, L)
  | '=' =>
    match L.peekChar with
    | none => none
    | some p =>
      if p = some '=' then
        match L.nextChar with
        | none => none
        | some r => some (Token.simple r.2.line r.2.column TokenKind.EqualsEquals, r.2)
      else some (Token.simple L.line L.column TokenKind.Equals, L)
  | '+' =>
    match L.peekChar with
    | none => none
    | some p =>
      if p = some '=' then
        match L.nextChar with
        | none => none
        | some r => some (Token.simple r.2.line r.2.column TokenKind.PlusEquals, r.2)
      else some (Token.simple L.line L.column TokenKind.Plus, L)
  | '-' =>
    match L.peekChar with
    | none => none
    | some p =>
      if p = some '=' then
        match L.nextChar with
        | none => none
        | some r => some (Token.simple r.2.line r.2.column TokenKind.MinusEquals, r.2)
      else some (Token.simple L.line L.column TokenKind.Minus, L)
  | '*' =>
    match L.peekChar with
    | none => none
    | some p =>
      if p = some '=' then
        match L.nextChar with
        | none => none
        | some r => some (Token.simple r.2.line r.2.column TokenKind.StarEquals, r.2)
      else some (Token.simple L.line L.column TokenKind.Star, L)
  | '/' =>
    match L.peekChar with
    | none => none
    | some p =>
      if p = some '=' then
        match L.nextChar with
        | none => none
        | some r => some (Token.simple r.2.line r.2.column TokenKind.SlashEquals, r.2)
      else if p = some '/' then L.consumeSingleLineComment
      else some (Token.simple L.line L.column TokenKind.Slash, L)
  | '&' =>
    match L.peekChar with
    | none => none
    | some p =>
      if p = some '&' then
        match L.nextChar with
        | none => none
        | some r =>
          some (Token.simple r.2.line r.2.column TokenKind.AmpersandAmpersand, r.2)
      else some (Token.simple L.line L.column TokenKind.Ampersand, L)
  | '!' =>
    match L.peekChar with
    | none => none
    | some p =>
      if p = some '=' then
        match L.nextChar with
        | none => none
        | some r => some (Token.simple r.2.line r.2.column TokenKind.NotEquals, r.2)
      else some (Token.simple L.line L.column TokenKind.Not, L)
  | '~' =>
    match L.peekChar with
    | none => none
    | some p =>
      if p = some '=' then
        match L.nextChar with
        | none => none
        | some r => some (Token.simple r.2.line r.2.column TokenKind.TildeEquals, r.2)
      else some (Token.simple L.line L.column TokenKind.Tilde, L)
  | '|' =>
    match L.peekChar with
    | none => none
    | some p =>
      if p = some '|' then
        match L.nextChar with
        | none => none
        | some r => some (Token.simple r.2.line r.2.column TokenKind.PipePipe, r.2)
      else some (Token.simple L.line L.column TokenKind.Pipe, L)
  | c =>
    if c.isDigit then (L.retreat 1).consumeNumber
    else if is_valid_identifier_start_char c then
      ((L.retreat c.utf8Size).skipWhitespace).bind Lexer.consumeIdentifier
    else
      some (Token.error L.line L.column
        ("Unexpected character " ++ squote ++ String.singleton c ++ squote), L)

/-- Lexer::next: skip whitespace, read one character (end of text yields the
end-of-input token at the current position), and dispatch on it. -/
def Lexer.next (L : Lexer) : Option (Token × Lexer) :=
  (L.skipWhitespace).bind (fun L1 =>
    (L1.nextChar).bind (fun r =>
      match r.1 with
      | none => some (Token.eof r.2.line r.2.column, r.2)
      | some c => r.2.dispatch c))

/-- n further calls to next after a first one: nextN 0 is a single call. -/
def Lexer.nextN : Nat → Lexer → Option (Token × Lexer)
  | 0, L => L.next
  | n + 1, L => (L.next).bind (fun r => Lexer.nextN n r.2)

/-- Repeatedly call next, collecting the token kinds up to and including
the first end-of-input token; none on a panic or when the fuel runs out. -/
def collectKinds : Nat → Lexer → Option (List TokenKind)
  | 0, _ => none
  | fuel + 1, L =>
    (L.next).bind (fun r =>
      match r.1.kind with
      | TokenKind.Eof => some [TokenKind.Eof]
      | k => (collectKinds fuel r.2).map (fun ks => k :: ks))

/-- C1: refuted on the code.  next() does panic on short inputs: the
keyword lookahead next_is slices src[cursor .. cursor + 3] without a bounds
check, so the one-token inputs l, le, let and t all abort, and
skip_whitespace advances the cursor by a character count rather than a byte
count, so a multi-byte whitespace character (here U+00A0) leaves the cursor
inside its encoding and the following slice panics.  none models the
panic. -/
theorem c1_next_panics_on_short_and_multibyte_inputs :
    Lexer.next (Lexer.new (String.toList "let")) = none ∧
    Lexer.next (Lexer.new (String.toList "l")) = none ∧
    Lexer.next (Lexer.new (String.toList "le")) = none ∧
    Lexer.next (Lexer.new (String.toList "t")) = none ∧
    Lexer.next (Lexer.new [Char.ofNat 0xA0]) = none := by
  decide

/-- C2: refuted on the code.  peek_char inspects the byte one past the
cursor, which next_char has already moved past the operator, so the
lookahead sees the character after the candidate =: the source += lexes as
a bare Plus, && lexes as a bare Ampersand, and the one-character source &
panics (none) because the peek slices out of range. -/
theorem c2_compound_operators_not_formed :
    (Lexer.next (Lexer.new (String.toList "+="))).map (fun r => r.1.kind) =
      some TokenKind.Plus ∧
    (Lexer.next (Lexer.new (String.toList "&&"))).map (fun r => r.1.kind) =
      some TokenKind.Ampersand ∧
    Lexer.next (Lexer.new (String.toList "&")) = none := by
  decide

/-- C3: refuted on the code.  The keyword check next_is only compares the
following bytes, without requiring the identifier run to end, so lets lexes
as the keyword Let — and the following call then panics, because the find
fallback of consume_identifier substitutes the whole source length for the
trailing run s; letter also lexes as Let and panics in the next call (the
t arm slices past the end); and the exact keyword let panics outright. -/
theorem c3_keyword_prefix_identifiers_split :
    (Lexer.next (Lexer.new (String.toList "lets"))).map (fun r => r.1.kind) =
      some TokenKind.Let ∧
    Lexer.nextN 1 (Lexer.new (String.toList "lets")) = none ∧
    (Lexer.next (Lexer.new (String.toList "letter"))).map (fun r => r.1.kind) =
      some TokenKind.Let ∧
    Lexer.nextN 1 (Lexer.new (String.toList "letter")) = none ∧
    Lexer.next (Lexer.new (String.toList "let")) = none := by
  decide

/-- C4: refuted on the code.  consume_number emits the too-many-dots error
whenever the literal contains one or more dots, not more than one: 3.14 is
rejected with the error token instead of parsing as a float, and 1.2.3 is
rejected by the same comparison. -/
theorem c4_single_dot_already_rejected :
    (Lexer.next (Lexer.new (String.toList "3.14"))).map (fun r => r.1.kind) =
      some (TokenKind.Error "too many dots in floating-point literal") ∧
    (Lexer.next (Lexer.new (String.toList "1.2.3"))).map (fun r => r.1.kind) =
      some (TokenKind.Error "too many dots in floating-point literal") := by
  decide

/-- C5: refuted on the code.  consume_number rejects a literal containing
any base-marker character at all before the Number parser ever runs, so
0x1F and 0b11 produce too-many-marker error tokens rather than Integer
values, and 0q5 never reaches the invalid-base check: the numeric scan
stops before the q, yielding Untyped 0, and the following call panics
scanning the trailing identifier run q5 (the find fallback again). -/
theorem c5_base_markers_never_reach_radix_parsing :
    (Lexer.next (Lexer.new (String.toList "0x1F"))).map (fun r => r.1.kind) =
      some (TokenKind.Error
        ("Too many " ++ squote ++ "x" ++ squote ++ " in integer literal")) ∧
    (Lexer.next (Lexer.new (String.toList "0b11"))).map (fun r => r.1.kind) =
      some (TokenKind.Error
        ("Too many " ++ squote ++ "b" ++ squote ++ " in integer literal")) ∧
    (Lexer.next (Lexer.new (String.toList "0q5"))).map (fun r => r.1.kind) =
      some (TokenKind.Number (Number.Untyped 0)) ∧
    Lexer.nextN 1 (Lexer.new (String.toList "0q5")) = none := by
  decide

/-- C6: refuted on the code.  The i arm peeks one byte past the character
after the i, so the two-character source if lexes as the identifier if; on
iff the lookahead does see an f and emits the If keyword without consuming
the second character, and the following call, re-reading the trailing ff
run, panics on the find fallback of consume_identifier. -/
theorem c6_if_keyword_not_recognised :
    collectKinds 8 (Lexer.new (String.toList "if")) =
      some [TokenKind.Identifier (String.toList "if"), TokenKind.Eof] ∧
    (Lexer.next (Lexer.new (String.toList "iff"))).map (fun r => r.1.kind) =
      some TokenKind.If ∧
    Lexer.nextN 1 (Lexer.new (String.toList "iff")) = none := by
  decide

/-- C7: refuted on the code.  Because peek_char looks one byte past the
cursor, a // pair is never seen as a comment opener (that would need a
third slash): the comment example lexes as Slash, Slash, identifier note —
no comment token at all — and the fourth call panics scanning the final
identifier run x at end of input (the find fallback of
consume_identifier). -/
theorem c7_line_comment_not_detected :
    (Lexer.next (Lexer.new (String.toList ("// note" ++
        String.singleton (Char.ofNat 10) ++ "x")))).map (fun r => r.1.kind) =
      some TokenKind.Slash ∧
    (Lexer.nextN 1 (Lexer.new (String.toList ("// note" ++
        String.singleton (Char.ofNat 10) ++ "x")))).map (fun r => r.1.kind) =
      some TokenKind.Slash ∧
    (Lexer.nextN 2 (Lexer.new (String.toList ("// note" ++
        String.singleton (Char.ofNat 10) ++ "x")))).map (fun r => r.1.kind) =
      some (TokenKind.Identifier (String.toList "note")) ∧
    Lexer.nextN 3 (Lexer.new (String.toList ("// note" ++
        String.singleton (Char.ofNat 10) ++ "x"))) = none := by
  decide

/-- C8: confirmed.  The end-to-end example from the spec and from the test
in the source lexes to exactly the claimed kind sequence followed by
end-of-input. -/
theorem c8_end_to_end_token_sequence :
    collectKinds 30
        (Lexer.new (String.toList
          "let tuple : (i8, second: i16, i32) = (3, 4, 5);")) =
      some [TokenKind.Let, TokenKind.Identifier (String.toList "tuple"),
            TokenKind.Colon, TokenKind.LeftParen,
            TokenKind.Identifier (String.toList "i8"), TokenKind.Comma,
            TokenKind.Identifier (String.toList "second"), TokenKind.Colon,
            TokenKind.Identifier (String.toList "i16"), TokenKind.Comma,
            TokenKind.Identifier (String.toList "i32"), TokenKind.RightParen,
            TokenKind.Equals, TokenKind.LeftParen,
            TokenKind.Number (Number.Untyped 3), TokenKind.Comma,
            TokenKind.Number (Number.Untyped 4), TokenKind.Comma,
            TokenKind.Number (Number.Untyped 5), TokenKind.RightParen,
            TokenKind.Semicolon, TokenKind.Eof] := by
  decide

/-- A member of the dropWhile of a list is a member of the list. -/
theorem mem_of_mem_dropWhile {α : Type} {p : α → Bool} {a : α} {l : List α}
    (h : a ∈ l.dropWhile p) : a ∈ l := by
  induction l with
  | nil => simp at h
  | cons c cs ih =>
    rw [List.dropWhile_cons] at h
    split at h
    · exact List.mem_cons_of_mem c (ih h)
    · exact h

/-- When the literal contains no dot, a successful float parse has an empty
fractional digit string. -/
theorem parseF64_fr_nil_of_no_dot {p : List Char} {ip : Nat} {fr : List Char}
    (hd : ('.' : Char) ∉ p) (h : parseF64 p = some (ip, fr)) : fr = [] := by
  simp only [parseF64] at h
  split at h
  · split at h
    · exact Option.noConfusion h
    · simp only [Option.some.injEq, Prod.mk.injEq] at h
      exact h.2.symm
  · rename_i fr2 heq
    exact absurd (mem_of_mem_dropWhile (heq ▸ List.mem_cons_self '.' fr2)) hd
  · exact Option.noConfusion h

/-- A digit accepted under radix ten is an ASCII decimal digit. -/
theorem charToDigit_ten_isDigit {c : Char} {d : Nat}
    (h : charToDigit c 10 = some d) : c.isDigit = true := by
  unfold charToDigit at h
  split at h
  · assumption
  · split at h
    · split at h
      · rename_i hnd hlow hlt
        exfalso
        simp only [isAsciiLower, Bool.and_eq_true, decide_eq_true_eq] at hlow
        omega
      · exact Option.noConfusion h
    · split at h
      · split at h
        · rename_i hnd hnl hup hlt
          exfalso
          simp only [isAsciiUpper, Bool.and_eq_true, decide_eq_true_eq] at hup
          omega
        · exact Option.noConfusion h
      · exact Option.noConfusion h

/-- If the radix-ten loop succeeds, every character was an ASCII digit. -/
theorem fromStrRadixLoop_all_digits : ∀ {s : List Char} {a v : Nat},
    fromStrRadixLoop 10 s a = some v → ∀ c ∈ s, c.isDigit = true := by
  intro s
  induction s with
  | nil =>
    intro a v _ c hc
    cases hc
  | cons c0 cs ih =>
    intro a v h c hc
    rw [fromStrRadixLoop] at h
    split at h
    · exact Option.noConfusion h
    · rename_i d hd
      split at h
      · cases hc with
        | head => exact charToDigit_ten_isDigit hd
        | tail _ hmem => exact ih h c hmem
      · exact Option.noConfusion h

/-- If from_str_radix succeeds under radix ten, the string is a nonempty
run of ASCII digits. -/
theorem fromStrRadix_ten_digits {p : List Char} {k : Nat}
    (h : fromStrRadix p 10 = some k) : p ≠ [] ∧ ∀ c ∈ p, c.isDigit = true := by
  unfold fromStrRadix at h
  split at h
  · exact Option.noConfusion h
  · rename_i hne
    refine ⟨?_, fromStrRadixLoop_all_digits h⟩
    intro hnil
    subst hnil
    simp at hne

/-- On a nonempty run of ASCII digits the float parse succeeds with an
empty fractional part. -/
theorem parseF64_of_all_digits {p : List Char} (hne : p ≠ [])
    (hall : ∀ c ∈ p, c.isDigit = true) :
    parseF64 p = some (natOfDigits p, []) := by
  have ht : p.takeWhile Char.isDigit = p := List.takeWhile_eq_self_iff.mpr hall
  have hd : p.dropWhile Char.isDigit = [] := List.dropWhile_eq_nil_iff.mpr hall
  cases p with
  | nil => exact absurd rfl hne
  | cons x xs =>
    simp only [parseF64, ht, hd]
    rfl

/-- Number::from_str can only classify a dot-free, marker-free literal as
Untyped: the Float branch needs a dot, and the Integer branch needs either
a base marker after a leading zero or a digit run that the float parse
would already have accepted. -/
theorem fromStr_untyped {p : List Char} {n : Number}
    (hdot : ('.' : Char) ∉ p) (hb : ∀ b ∈ BASES, b ∉ p)
    (h : Number.fromStr p = Except.ok n) : ∃ m, n = Number.Untyped m := by
  unfold Number.fromStr at h
  split at h
  · rename_i ip fr hpf
    have hfr : fr = [] := parseF64_fr_nil_of_no_dot hdot hpf
    subst hfr
    simp only [natOfDigits, List.foldl_nil, beq_self_eq_true, if_true,
      Except.ok.injEq] at h
    exact ⟨ip, h.symm⟩
  · rename_i hpf
    split at h
    · split at h
      · simp only [Except.ok.injEq] at h
        exact ⟨0, h.symm⟩
      · rename_i base hbase
        have hmem : base ∈ p := List.get?_mem hbase
        split at h
        · exact Except.noConfusion h
        · rename_i radix hsel
          exfalso
          have hbB : base ∈ BASES := by
            revert hsel
            split
            · intro _; decide
            · intro _; decide
            · intro _; decide
            · intro _; decide
            · intro _; decide
            · intro _; decide
            · intro hsel; exact Option.noConfusion hsel
          exact hb base hbB hmem
    · split at h
      · rename_i k hk
        exfalso
        obtain ⟨hne, hall⟩ := fromStrRadix_ten_digits hk
        rw [parseF64_of_all_digits hne hall] at hpf
        exact Option.noConfusion hpf
      · exact Except.noConfusion h

/-- consume_identifier only produces identifier tokens. -/
theorem consumeIdentifier_kind {L : Lexer} {t : Token} {L' : Lexer}
    (h : L.consumeIdentifier = some (t, L')) :
    t.kind ≠ TokenKind.Eof ∧
      ∀ v, t.kind = TokenKind.Number v → ∃ m, v = Number.Untyped m := by
  simp only [Lexer.consumeIdentifier, Option.bind_eq_some, Option.map_eq_some'] at h
  obtain ⟨rest, _, name, _, hbody⟩ := h
  injection hbody with h1 h2
  subst h1
  refine ⟨by simp [Token.identifier], ?_⟩
  intro v hv
  simp [Token.identifier] at hv

/-- consume_single_line_comment only produces the comment token. -/
theorem consumeSingleLineComment_kind {L : Lexer} {t : Token} {L' : Lexer}
    (h : L.consumeSingleLineComment = some (t, L')) :
    t.kind ≠ TokenKind.Eof ∧
      ∀ v, t.kind = TokenKind.Number v → ∃ m, v = Number.Untyped m := by
  simp only [Lexer.consumeSingleLineComment, Option.map_eq_some'] at h
  obtain ⟨cur, _, heq⟩ := h
  injection heq with h1 h2
  subst h1
  refine ⟨by simp [Token.simple], ?_⟩
  intro v hv
  simp [Token.simple] at hv

/-- consume_number produces an error token or a Number token whose payload
is Untyped: its own guards reject every literal containing a dot or a base
marker before Number::from_str runs, and from_str classifies what remains
as Untyped or fails. -/
theorem consumeNumber_kind {L : Lexer} {t : Token} {L' : Lexer}
    (h : L.consumeNumber = some (t, L')) :
    t.kind ≠ TokenKind.Eof ∧
      ∀ v, t.kind = TokenKind.Number v → ∃ m, v = Number.Untyped m := by
  simp only [Lexer.consumeNumber, Option.bind_eq_some, Option.map_eq_some'] at h
  obtain ⟨rest, _, p, _, hbody⟩ := h
  split at hbody
  · injection hbody with h1 h2
    subst h1
    refine ⟨by simp [Token.error], ?_⟩
    intro v hv
    simp [Token.error] at hv
  · rename_i hdotlen
    split at hbody
    · injection hbody with h1 h2
      subst h1
      refine ⟨by simp [Token.error], ?_⟩
      intro v hv
      simp [Token.error] at hv
    · rename_i hfind
      split at hbody
      · rename_i nval hok
        injection hbody with h1 h2
        subst h1
        refine ⟨by simp [Token.number], ?_⟩
        intro v hv
        simp only [Token.number, TokenKind.Number.injEq] at hv
        subst hv
        have hdot : ('.' : Char) ∉ p := by
          intro hin
          exact hdotlen (List.length_pos_of_mem
            (List.mem_filter.mpr ⟨hin, by simp⟩))
        have hmk : ∀ b ∈ BASES, b ∉ p := by
          intro b hbB hbp
          have hnone := List.find?_eq_none.mp hfind b hbB
          simp only [decide_eq_true_eq] at hnone
          exact hnone (List.length_pos_of_mem
            (List.mem_filter.mpr ⟨hbp, by simp⟩))
        exact fromStr_untyped hdot hmk hok
      · rename_i e herr
        injection hbody with h1 h2
        subst h1
        refine ⟨by simp [Token.error], ?_⟩
        intro v hv
        simp [Token.error] at hv

/-- Every token the dispatch arm of next emits has a kind other than
end-of-input, and when that kind is a Number its payload is Untyped. -/
theorem dispatch_kind {L : Lexer} {c : Char} {t : Token} {L' : Lexer}
    (h : L.dispatch c = some (t, L')) :
    t.kind ≠ TokenKind.Eof ∧
      ∀ v, t.kind = TokenKind.Number v → ∃ m, v = Number.Untyped m := by
  unfold Lexer.dispatch at h
  repeat' split at h
  all_goals
    first
    | exact Option.noConfusion h
    | exact consumeIdentifier_kind h
    | exact consumeNumber_kind h
    | exact consumeSingleLineComment_kind h
    | (obtain ⟨M, hM, h2⟩ := Option.bind_eq_some.mp h
       exact consumeIdentifier_kind h2)
    | (injection h with h1
       injection h1 with ha hb
       subst ha
       constructor
       · simp [Token.simple, Token.error]
       · intro v hv
         simp [Token.simple, Token.error] at hv)

/-- With the remaining text empty, next returns the end-of-input token and
only bumps the column. -/
theorem next_at_end {L : Lexer} (h : byteDrop L.src L.cursor = some []) :
    Lexer.next L =
      some (Token.eof L.line (L.column + 1), { L with column := L.column + 1 }) := by
  have hsw : L.skipWhitespace = some L := by
    simp only [Lexer.skipWhitespace, h, Option.map_some', skipWsLoop, Nat.add_zero]
  have hnc : L.nextChar =
      some ((none : Option Char), { L with column := L.column + 1 }) := by
    simp only [Lexer.nextChar, h, Option.map_some']
    rfl
  unfold Lexer.next
  rw [hsw]
  show (L.nextChar).bind _ = _
  rw [hnc]
  rfl

/-- A call that returned the end-of-input token leaves the lexer with no
remaining text: every other branch of next emits a different kind. -/
theorem next_eof_state {L : Lexer} {t : Token} {L' : Lexer}
    (h : Lexer.next L = some (t, L')) (he : t.kind = TokenKind.Eof) :
    byteDrop L'.src L'.cursor = some [] := by
  simp only [Lexer.next, Option.bind_eq_some] at h
  obtain ⟨L1, hL1, r, hr, hmatch⟩ := h
  obtain ⟨oc, L2⟩ := r
  cases oc with
  | some c => exact absurd he (dispatch_kind hmatch).1
  | none =>
    have hm : some (Token.eof L2.line L2.column, L2) = some (t, L') := hmatch
    injection hm with hm1
    injection hm1 with ha hb
    subst ha
    subst hb
    simp only [Lexer.nextChar, Option.map_eq_some'] at hr
    obtain ⟨rest, hrest, heq⟩ := hr
    cases rest with
    | cons c cs =>
      have hfst : (some c : Option Char) = none :=
        congrArg Prod.fst heq
      exact Option.noConfusion hfst
    | nil =>
      have hsnd : ({ L1 with column := L1.column + 1 } : Lexer) = L2 :=
        congrArg Prod.snd heq
      rw [← hsnd]
      exact hrest

/-- From any state with no remaining text, every number of further calls
to next keeps producing end-of-input tokens. -/
theorem nextN_eof_forever : ∀ (n : Nat) (L : Lexer),
    byteDrop L.src L.cursor = some [] →
    ∃ t2 L2, Lexer.nextN n L = some (t2, L2) ∧ t2.kind = TokenKind.Eof := by
  intro n
  induction n with
  | zero =>
    intro L h
    exact ⟨_, _, next_at_end h, rfl⟩
  | succ n ih =>
    intro L h
    have h2 : byteDrop ({ L with column := L.column + 1 } : Lexer).src
        ({ L with column := L.column + 1 } : Lexer).cursor = some [] := h
    obtain ⟨t2, L2, hN, hk⟩ := ih _ h2
    refine ⟨t2, L2, ?_, hk⟩
    show (Lexer.next L).bind _ = _
    rw [next_at_end h]
    exact hN

/-- C9: confirmed.  Once a call to next has returned a token of
end-of-input kind, the lexer state has no remaining text and every
subsequent call — any number of further steps — again returns an
end-of-input token. -/
theorem c9_eof_is_absorbing {L : Lexer} {t : Token} {L' : Lexer} (n : Nat)
    (h : Lexer.next L = some (t, L')) (he : t.kind = TokenKind.Eof) :
    ∃ t2 L2, Lexer.nextN n L' = some (t2, L2) ∧ t2.kind = TokenKind.Eof :=
  nextN_eof_forever n L' (next_eof_state h he)

/-- Witness for C9 at the empty source: the first call returns
end-of-input, and two further calls still do. -/
theorem c9_witness :
    ∃ t2 L2, Lexer.nextN 2 (⟨[], 0, 1, 2⟩ : Lexer) = some (t2, L2) ∧
      t2.kind = TokenKind.Eof :=
  @c9_eof_is_absorbing (Lexer.new []) ⟨1, 2, TokenKind.Eof⟩ ⟨[], 0, 1, 2⟩ 2
    (by decide) rfl

/-- C10: confirmed.  Every Number token next can emit, from any lexer
state, carries the Untyped variant: consume_number rejects every literal
containing a dot or a base marker before invoking Number::from_str, and on
what remains from_str never produces Integer or Float. -/
theorem c10_number_tokens_always_untyped {L : Lexer} {t : Token} {L' : Lexer}
    {v : Number} (h : Lexer.next L = some (t, L'))
    (hv : t.kind = TokenKind.Number v) : ∃ m, v = Number.Untyped m := by
  simp only [Lexer.next, Option.bind_eq_some] at h
  obtain ⟨L1, hL1, r, hr, hmatch⟩ := h
  obtain ⟨oc, L2⟩ := r
  cases oc with
  | none =>
    have hm : some (Token.eof L2.line L2.column, L2) = some (t, L') := hmatch
    injection hm with hm1
    injection hm1 with ha hb
    subst ha
    simp [Token.eof] at hv
  | some c => exact (dispatch_kind hmatch).2 v hv

/-- Witness for C10 at the literal 3, which lexes to Number Untyped 3. -/
theorem c10_witness : ∃ m, Number.Untyped 3 = Number.Untyped m :=
  @c10_number_tokens_always_untyped (Lexer.new (String.toList "3"))
    ⟨2, 2, TokenKind.Number (Number.Untyped 3)⟩
    ⟨String.toList "3", 1, 2, 2⟩ (Number.Untyped 3) (by decide) rfl

end Tuploid
